import Mathlib

/-!
Verification of the FLAC encoder core (CoE164 midpoint project).

Shallow embedding of the Rust sources under `src/`:
  - `src/flac/lpc/fixed_tpl.rs`   (fixed polynomial predictor)
  - `src/flac/lpc/var_tpl.rs`     (LPC: autocorrelation, quantization)
  - `src/flac/encoder/rice_tpl.rs`(Rice coder scaffolding, zigzag)
  - `src/flac/encoder/crc_tpl.rs` (CRC-8 / CRC-16 long division)
  - `src/flac/encoder/utf8_tpl.rs`(UTF-8-style integer coder)
  - `src/wav_tpl.rs`              (RIFF/WAVE reader)

Conventions:
  - Rust machine integers are modelled as `Nat`/`Int`; where overflow or a
    fixed-width cast matters it is written out as an explicit `% 2^w` or a
    saturating conversion.  All theorem inputs below stay far inside the
    source's integer ranges, so wrap/panic behaviour of Rust arithmetic is
    never exercised.
  - Rust `f64` values are modelled as `ℚ` (exact arithmetic).  Every concrete
    evaluation performed in the theorems below involves only values that are
    exactly representable in IEEE-754 binary64 and operations that are exact
    on them (small-integer sums/products, division by small integers,
    multiplication by powers of two), so the `ℚ` model agrees bit-for-bit
    with the `f64` computation at those points.
  - Rust in-place vector mutation is modelled with `List.set`; all indices
    used by the sources are in bounds at the evaluated inputs.
  - Loops whose termination measure is not structural are given an explicit
    fuel argument that provably dominates the number of iterations for the
    inputs considered; this keeps every definition kernel-computable.
-/

/-- Fuel-driven floor of the base-2 logarithm: `ilog2Aux fuel n` equals
`⌊log₂ n⌋` whenever `fuel ≥ n ≥ 1` (the argument at least halves each step).
Models Rust's `u64::ilog2`/`i64::ilog2`/`i128::ilog2`, which panic on `0`;
the embedding returns `0` there, a point never reached by the evaluations
below. -/
def ilog2Aux : Nat → Nat → Nat
  | 0, _ => 0
  | fuel + 1, n => if n ≥ 2 then ilog2Aux fuel (n / 2) + 1 else 0

/-- Floor of the base-2 logarithm of a natural number (total; `ilog2 0 = 0`). -/
def ilog2 (n : Nat) : Nat := ilog2Aux n n

/-- MSB-first value of a list of bits. -/
def byteOfBits (bs : List Bool) : Nat :=
  bs.foldl (fun a b => 2 * a + (if b then 1 else 0)) 0

/-- Split a bit list (already padded to a multiple of 8) into MSB-first bytes. -/
def bytesOfBits : List Bool → List Nat
  | [] => []
  | b0 :: b1 :: b2 :: b3 :: b4 :: b5 :: b6 :: b7 :: rest =>
      byteOfBits [b0, b1, b2, b3, b4, b5, b6, b7] :: bytesOfBits rest
  | bs => [byteOfBits bs]

/-- The `w`-bit binary expansion of `n`, most-significant bit first. -/
def natBitsMSB (w n : Nat) : List Bool :=
  (List.range w).map (fun i => n.testBit (w - 1 - i))

/-- Embedding of `FixedPredictor::get_residuals`
(src/flac/lpc/fixed_tpl.rs, lines 69-152).  The source clones `data` into
`return_data` and updates it in place; for orders 1 and 2 the recurrence reads
the already-updated `return_data` entries, for order 3 it mixes `return_data`
and the original `data`, and for order 4 it reads only the original `data` —
the embedding reproduces those reads exactly.  The returned vector keeps the
length of `data` (warm-up positions are left in place). -/
def FixedPredictor.get_residuals (data : List Int) (predictor_order : Nat) :
    Option (List Int) :=
  if data.length < predictor_order then none
  else if predictor_order > 4 then none
  else
    match predictor_order with
    | 0 => some data
    | 1 =>
      if data.length < 2 then none
      else
        let rd := data.set 0 0
        some ((List.range' 1 (data.length - 1)).foldl
          (fun a i => a.set i (a.getD i 0 - a.getD (i - 1) 0)) rd)
    | 2 =>
      if data.length < 3 then none
      else
        some ((List.range' 2 (data.length - 2)).foldl
          (fun a i =>
            a.set i (a.getD i 0 - (2 * a.getD (i - 1) 0 - a.getD (i - 2) 0)))
          data)
    | 3 =>
      if data.length < 4 then none
      else
        some ((List.range' 3 (data.length - 3)).foldl
          (fun a i =>
            a.set i (a.getD i 0 -
              (3 * a.getD (i - 1) 0 - 3 * data.getD (i - 2) 0 +
                data.getD (i - 3) 0)))
          data)
    | 4 =>
      if data.length < 5 then none
      else
        some ((List.range' 4 (data.length - 4)).foldl
          (fun a i =>
            a.set i (a.getD i 0 -
              (4 * data.getD (i - 1) 0 - 6 * data.getD (i - 2) 0 +
                4 * data.getD (i - 3) 0 - data.getD (i - 4) 0)))
          data)
    | _ => none

/-- Embedding of `FixedPredictor::best_predictor_order`
(src/flac/lpc/fixed_tpl.rs, lines 9-49).  The source loops `i = 0..=4`,
returns `None` as soon as `get_residuals` fails for any order, scores each
order by the absolute value of the *sum* of its residuals (`abs_sum += entry`
then `abs_sum.abs()`), and returns the index of the strict minimum (earliest
index on ties). -/
def FixedPredictor.best_predictor_order (data : List Int) : Option Nat :=
  let resids := [0, 1, 2, 3, 4].foldl
    (fun acc i =>
      match acc, FixedPredictor.get_residuals data i with
      | some l, some v => some (l ++ [|v.foldl (· + ·) 0|])
      | _, _ => none)
    (some [])
  match resids with
  | none => none
  | some rs =>
    let step := fun (mi : Int × Nat) (q : Nat) =>
      if rs.getD q 0 < mi.1 then (rs.getD q 0, q) else mi
    some ((List.range' 1 (rs.length - 1)).foldl step (rs.getD 0 0, 0)).2

/-- Input of the source's own test `fixed_tpl.rs::tests::sample_ietf_02a`. -/
def ietf02aIn : List Int :=
  [4302, 7496, 6199, 7427, 6484, 7436, 6740, 7508,
   6984, 7583, 7182, -5990, -6306, -6032, -6299, -6165]

/-- Expected output of the source's own test
`fixed_tpl.rs::tests::sample_ietf_02a` (15 order-1 residuals). -/
def ietf02aOut : List Int :=
  [3194, -1297, 1228, -943, 952, -696, 768, -524,
   599, -401, -13172, -316, 274, -267, 134]

/-- Embedding of `RiceEncoderOptions::max_rice_partition_order`
(src/flac/encoder/rice_tpl.rs, lines 53-85): a chain of bit tests
`block_size & 2`, `& 4`, …, `& 128`, each returning the *value* of the
matched bit, with a fall-through result of `1`. -/
def RiceEncoderOptions.max_rice_partition_order (block_size : Nat) : Nat :=
  if block_size &&& 2 == 2 then 2
  else if block_size &&& 4 == 4 then 4
  else if block_size &&& 8 == 8 then 8
  else if block_size &&& 16 == 16 then 16
  else if block_size &&& 32 == 32 then 32
  else if block_size &&& 64 == 64 then 64
  else if block_size &&& 128 == 128 then 128
  else 1

/-- Fuel-driven 2-adic valuation, written from the spec's definition
(`v2(N)`: largest `k` with `2^k | N`); `fuel ≥ n` suffices since the
argument halves each step. -/
def specV2Aux : Nat → Nat → Nat
  | 0, _ => 0
  | fuel + 1, n => if n ≠ 0 ∧ n % 2 = 0 then specV2Aux fuel (n / 2) + 1 else 0

/-- The 2-adic valuation `v2(N)` of the spec (glossary: largest `k` with
`2^k | N`). -/
def specV2 (n : Nat) : Nat := specV2Aux n n

/-- Embedding of `RiceEncoderOptions::zigzag`
(src/flac/encoder/rice_tpl.rs, lines 216-221):
`((num >> 63) ^ (num << 1)) as u64` on `i64`, modelled bit-exactly on the
two's-complement representation. -/
def RiceEncoderOptions.zigzag (num : Int) : Nat :=
  let u := (num % (2 ^ 64 : Int)).toNat
  let sr := if u ≥ 2 ^ 63 then 2 ^ 64 - 1 else 0
  let sl := (u * 2) % 2 ^ 64
  Nat.xor sl sr

/-- Mirrors `RiceEncodedStream` (src/flac/encoder/rice_tpl.rs, lines 20-24). -/
structure RiceEncodedStream where
  stream : List Nat
  param : Nat
  extra_bits_len : Nat
deriving DecidableEq, Repr

/-- Modelled from the spec: the body of `RiceEncoderOptions::encode`
(src/flac/encoder/rice_tpl.rs, lines 164-195) is an incomplete fragment with
no return value (it pushes into an immutable vector, references the
non-existent `Self::RiceEncoderOptions`, and ends without producing a
`RiceEncodedStream`), so the encoding it was meant to perform is taken from
spec §4.4: each residual is zigzag-mapped to `z`, emitted as `z >> M` unary
`0` bits, a `1` stop bit, and the `M`-bit remainder MSB-first; the bits are
packed MSB-first into bytes, and `extra_bits_len` counts the unused
low-order bits of the last byte. -/
def RiceEncoderOptions.encode (rice_param : Nat) (residuals : List Int) :
    RiceEncodedStream :=
  let bits := residuals.foldl
    (fun acc r =>
      let z := RiceEncoderOptions.zigzag r
      acc ++ List.replicate (z >>> rice_param) false ++ [true] ++
        natBitsMSB rice_param (z % 2 ^ rice_param))
    []
  let extra := (8 - bits.length % 8) % 8
  { stream := bytesOfBits (bits ++ List.replicate extra false),
    param := rice_param,
    extra_bits_len := extra }

/-- Embedding of the CRC long-division loop shared by
`CrcOptions::<u8>::build_crc8` and `CrcOptions::<u16>::build_crc16`
(src/flac/encoder/crc_tpl.rs, lines 53-67): while `counter != 0`, XOR the
divisor into the dividend when the dividend has at least `poly_len + 1`
bits, otherwise shift in the next lower bit of `comb_vec` and decrement
`counter`.  A fold with fuel `2 * counter + 2` dominates the loop (each
counter value triggers at most one XOR step, since an XOR always clears the
top bit and drops the dividend below `2 ^ poly_len`). -/
def crcLoop (poly_len divisor comb_vec : Nat) : Nat → Nat → Nat → Nat
  | 0, _, dividend => dividend
  | fuel + 1, counter, dividend =>
    if counter = 0 then dividend
    else if ilog2 dividend ≥ poly_len then
      crcLoop poly_len divisor comb_vec fuel counter (Nat.xor dividend divisor)
    else
      let append := (comb_vec &&& (1 <<< (counter - 1))) >>> (counter - 1)
      crcLoop poly_len divisor comb_vec fuel (counter - 1)
        ((dividend <<< 1) + append)

/-- Embedding of `CrcOptions::<u8>::build_crc8`
(src/flac/encoder/crc_tpl.rs, lines 30-79), with `poly`/`poly_len` passed as
plain naturals.  The source folds the message bytes into `comb_vec`
(shifting by `poly_len` after *every* byte, including the last), takes
`counter = comb_vec.ilog2()`, shifts `comb_vec` left by `poly_len` once
more, seeds the dividend with the top bits, runs the long-division loop,
applies one final conditional XOR, and truncates to `u8`. -/
def CrcOptions.build_crc8 (poly poly_len : Nat) (data : List Nat) : Nat :=
  let divisor := (1 <<< poly_len) + poly
  let comb_vec := data.foldl (fun acc b => (acc + b) <<< poly_len) 0
  let counter := ilog2 comb_vec
  let comb_vec2 := comb_vec <<< poly_len
  let dividend := comb_vec2 >>> counter
  let d := crcLoop poly_len divisor comb_vec2 (2 * counter + 2) counter dividend
  (if ilog2 d ≥ poly_len then Nat.xor d divisor else d) % 256

/-- Embedding of `Utf8Encoder::encode` (src/flac/encoder/utf8_tpl.rs,
lines 8-93).  The source's range table starts its second row at `num < 65`
→ `num < 2049` (so 65..=127 is treated as two-byte), builds the leading
byte from `num_bytes - 1` header bits and the bits `max_bits - 1` down to
`max_bits - (7 - num_bytes) + 1` of `num` (for `num_bytes = 0` this reads
bits 6..1, dropping bit 0), and then packs continuation bytes six data bits
at a time with a `0b10` prefix.  Bit indices that would underflow `u64` in
Rust (only reachable for `num ≥ 2^40`, far outside every evaluation below)
are truncated at zero by `Nat` subtraction. -/
def Utf8Encoder.encode (num : Nat) : List Nat :=
  let nbmb :=
    if num < 65 then (0, 7)
    else if num < 2049 then (2, 11)
    else if num < 65537 then (3, 16)
    else if num < 2097153 then (4, 21)
    else if num < 67108865 then (5, 26)
    else if num < 2147483649 then (6, 31)
    else if num < 1099511627777 then (7, 40)
    else (0, 0)
  let num_bytes := nbmb.1
  let max_bits := nbmb.2
  let header0 : Nat :=
    if num_bytes ≠ 0 then
      (List.range (num_bytes - 1)).foldl (fun h _ => (h + 1) <<< 1) 0
    else 0
  let header : Nat :=
    if num_bytes ≠ 7 then
      (List.range' 1 (7 - num_bytes - 1)).foldl
        (fun h i =>
          (h <<< 1) + ((num &&& (1 <<< (max_bits - i))) >>> (max_bits - i)))
        header0
    else header0
  if num_bytes = 0 then [header % 256]
  else
    ((List.range' (8 - num_bytes) (max_bits + 1 - (8 - num_bytes))).foldl
      (fun (st : Nat × Nat × List Nat) i =>
        let nex := st.1 + ((num &&& (1 <<< (max_bits - i))) >>> (max_bits - i))
        let reset := st.2.1 + 1
        if reset = 6 then (0, 0, st.2.2 ++ [(nex + (1 <<< 7)) % 256])
        else (nex <<< 1, reset, st.2.2))
      (0, 0, [header % 256])).2.2

/-- Fuel-driven helper for `⌊log₂ q⌋` on `0 < q < 1`: returns the least `k`
with `q · 2^k ≥ 1`, so that `⌊log₂ q⌋ = -k`; fuel `q.den` suffices since
`q ≥ 1 / q.den`. -/
def ratFloorLog2Aux : Nat → ℚ → Nat
  | 0, _ => 0
  | fuel + 1, q => if 1 ≤ q * 2 then 1 else ratFloorLog2Aux fuel (q * 2) + 1

/-- `⌊log₂ q⌋` for a positive rational, the exact-arithmetic value of the
correctly rounded `f64::log2` followed by `floor` away from binade
boundaries (all inputs evaluated below are far from such boundaries). -/
def ratFloorLog2 (q : ℚ) : Int :=
  if 1 ≤ q then (ilog2 ⌊q⌋.toNat : Int)
  else -(ratFloorLog2Aux q.den q : Int)

/-- Rust's `f64::round`: round half away from zero. -/
def rustRound (q : ℚ) : Int :=
  if 0 ≤ q then ⌊q + 1 / 2⌋ else -⌊-q + 1 / 2⌋

/-- Rust's saturating `f64 as u32` cast applied to an integral value:
negative values clamp to `0`, values above `u32::MAX` clamp to it. -/
def f64ToU32 (i : Int) : Nat :=
  if i < 0 then 0 else min i.toNat (2 ^ 32 - 1)

/-- Embedding of `VarPredictor::get_autocorrelation`
(src/flac/lpc/var_tpl.rs, lines 12-29).  As written the Rust does not
compile (`data_store` is not `mut`, an `i32 * i32` product is added to an
`f64`, and the store is indexed by a `u32`); the embedding follows the
evident intent of each statement.  `f64` is modelled as `ℚ`.  The semantic
point preserved exactly is that each lag-`i` sum is divided by
`data.len() - i` before being stored. -/
def VarPredictor.get_autocorrelation (data : List Int) (lag : Nat) :
    List ℚ :=
  if data.length ≤ 1 then List.replicate (lag + 1) 0
  else
    (List.range (lag + 1)).map (fun i =>
      ((List.range (data.length - i)).foldl
        (fun s x => s + ((data.getD x 0 : Int) : ℚ) * ((data.getD (x + i) 0 : Int) : ℚ))
        0) / ((data.length - i : Nat) : ℚ))

/-- Embedding of `VarPredictor::quantize_coeffs`
(src/flac/lpc/var_tpl.rs, lines 109-149).  The identifier slips in the
source (`coef` for `num_coeff`, `e` for `rounding_error`, `l_raw` scoped
inside the `if`) are resolved to their evident referents; `f64` is modelled
as `ℚ`.  Faithfully kept: `max_p1 = (log2(L_max) + 1).floor() as u32`
(saturating at 0), `max_bits = max_p1 - 1` (u32 subtraction — Rust would
panic on underflow, `Nat` truncates; no evaluation below underflows),
`sf = (precision - 1) - max_bits` (u32 subtraction, then `as i32`, so the
`sf < 0` branch is unreachable), no clamp of `sf` at 31, round half away
from zero with the running error, `as u32` saturation on each pushed
coefficient, and no clamp into the signed `precision`-bit range. -/
def VarPredictor.quantize_coeffs (lpc_coefs : List ℚ) (precision : Nat) :
    List Nat × Nat :=
  let abs_val := lpc_coefs.foldl (fun num1 num2 => max num1 |num2|) 0
  let max_p1 : Nat := (ratFloorLog2 abs_val + 1).toNat
  let max_bits := max_p1 - 1
  let sf : Int := ((precision - 1 - max_bits : Nat) : Int)
  let qe := lpc_coefs.foldl
    (fun (st : List Nat × ℚ) num_coeff =>
      let l_raw : ℚ :=
        if sf < 0 then num_coeff / (2 ^ sf.natAbs) else num_coeff * 2 ^ sf.toNat
      let l_quantized := rustRound (l_raw + st.2)
      (st.1 ++ [f64ToU32 l_quantized], st.2 + (l_raw - (l_quantized : ℚ))))
    ([], 0)
  (qe.1, (if sf < 0 then 0 else sf).toNat)

/-- Mirrors `WaveReaderError` (src/wav_tpl.rs, lines 63-70). -/
inductive WaveReaderError where
  | NotRiffError
  | NotWaveError
  | NotPCMError
  | ChunkTypeError
  | DataAlignmentError
  | ReadError
deriving DecidableEq, Repr

/-- Mirrors `RiffChunk` (src/wav_tpl.rs, lines 19-22). -/
structure RiffChunk where
  file_size : Nat
  is_big_endian : Bool
deriving DecidableEq, Repr

/-- Mirrors `PCMWaveFormatChunk` (src/wav_tpl.rs, lines 31-35). -/
structure PCMWaveFormatChunk where
  num_channels : Nat
  samp_rate : Nat
  bps : Nat
deriving DecidableEq, Repr

/-- Mirrors `PCMWaveDataChunk` (src/wav_tpl.rs, lines 42-46); the
`BufReader<File>` field is modelled by the byte offset at which the chunk's
reader was left (the source seeks the shared handle to `start_pos + 4`
before wrapping it). -/
structure PCMWaveDataChunk where
  size_bytes : Nat
  format : PCMWaveFormatChunk
  data_pos : Nat
deriving DecidableEq, Repr

/-- Mirrors `PCMWaveInfo` (src/wav_tpl.rs, lines 10-14). -/
structure PCMWaveInfo where
  riff_header : RiffChunk
  fmt_header : PCMWaveFormatChunk
  data_chunks : List PCMWaveDataChunk
deriving DecidableEq, Repr

/-- Model of `std::io::Read::read_exact` on a file represented as a byte
list with an explicit cursor: returns the `n` bytes at `pos` and the
advanced cursor, or `ReadError` (the source's `From<io::Error>` conversion)
when fewer than `n` bytes remain. -/
def readBytes (bytes : List Nat) (pos n : Nat) :
    Except WaveReaderError (List Nat × Nat) :=
  if pos + n ≤ bytes.length then .ok ((bytes.drop pos).take n, pos + n)
  else .error .ReadError

/-- Little-endian `u16` of a 2-byte read. -/
def leU16 : List Nat → Nat
  | [b0, b1] => b0 + 256 * b1
  | _ => 0

/-- Little-endian `u32` of a 4-byte read. -/
def leU32 : List Nat → Nat
  | [b0, b1, b2, b3] => b0 + 256 * b1 + 65536 * b2 + 16777216 * b3
  | _ => 0

/-- Big-endian `u32` of a 4-byte read. -/
def beU32 : List Nat → Nat
  | [b0, b1, b2, b3] => 16777216 * b0 + 65536 * b1 + 256 * b2 + b3
  | _ => 0

/-- `PCMWaveFormatChunk::byte_rate` (src/wav_tpl.rs, lines 268-270):
`samp_rate * num_channels * bps / 8` in `u32` arithmetic (no evaluation
below approaches `2^32`, so plain `Nat` arithmetic is exact). -/
def PCMWaveFormatChunk.byte_rate (f : PCMWaveFormatChunk) : Nat :=
  f.samp_rate * f.num_channels * f.bps / 8

/-- `PCMWaveFormatChunk::block_align` (src/wav_tpl.rs, lines 277-279):
`num_channels * bps / 8` in `u16` arithmetic (no evaluation below
approaches `2^16`). -/
def PCMWaveFormatChunk.block_align (f : PCMWaveFormatChunk) : Nat :=
  f.num_channels * f.bps / 8

/-- Embedding of `WaveReader::read_riff_chunk` (src/wav_tpl.rs,
lines 107-133), reading at cursor `pos` and returning the parsed header
together with the advanced cursor. -/
def WaveReader.read_riff_chunk (bytes : List Nat) (pos : Nat) :
    Except WaveReaderError (RiffChunk × Nat) :=
  match readBytes bytes pos 4 with
  | .error e => .error e
  | .ok (riff_id, p1) =>
    if riff_id ≠ [0x52, 0x49, 0x46, 0x46] ∧ riff_id ≠ [0x52, 0x49, 0x46, 0x58]
    then .error .NotRiffError
    else
      match readBytes bytes p1 4 with
      | .error e => .error e
      | .ok (szb, p2) =>
        let file_size :=
          if riff_id = [0x52, 0x49, 0x46, 0x46] then leU32 szb else beU32 szb
        match readBytes bytes p2 4 with
        | .error e => .error e
        | .ok (wave_id, p3) =>
          if wave_id ≠ [0x57, 0x41, 0x56, 0x45] then .error .NotWaveError
          else .ok ({ file_size,
                      is_big_endian := riff_id = [0x52, 0x49, 0x46, 0x58] }, p3)

/-- Embedding of `WaveReader::read_fmt_chunk` (src/wav_tpl.rs,
lines 143-190): magic `fmt `, 4-byte chunk size (read and discarded),
`audio_format` (must be 1), `num_channels`, `samp_rate`, `byte_rate`,
`block_align`, `bps`, then the two alignment cross-checks.  Note that no
check restricts `bps` to `{8, 16, 24}`. -/
def WaveReader.read_fmt_chunk (bytes : List Nat) (pos : Nat) :
    Except WaveReaderError (PCMWaveFormatChunk × Nat) :=
  match readBytes bytes pos 4 with
  | .error e => .error e
  | .ok (fmt_id, p1) =>
    if fmt_id ≠ [0x66, 0x6d, 0x74, 0x20] then .error .ChunkTypeError
    else
      match readBytes bytes p1 4 with
      | .error e => .error e
      | .ok (_, p2) =>
        match readBytes bytes p2 2 with
        | .error e => .error e
        | .ok (afb, p3) =>
          if leU16 afb ≠ 1 then .error .NotPCMError
          else
            match readBytes bytes p3 2 with
            | .error e => .error e
            | .ok (ncb, p4) =>
              match readBytes bytes p4 4 with
              | .error e => .error e
              | .ok (srb, p5) =>
                match readBytes bytes p5 4 with
                | .error e => .error e
                | .ok (brb, p6) =>
                  match readBytes bytes p6 2 with
                  | .error e => .error e
                  | .ok (bab, p7) =>
                    match readBytes bytes p7 2 with
                    | .error e => .error e
                    | .ok (bpsb, p8) =>
                      let fmt_chunk : PCMWaveFormatChunk :=
                        { num_channels := leU16 ncb,
                          samp_rate := leU32 srb,
                          bps := leU16 bpsb }
                      if leU32 brb ≠ fmt_chunk.byte_rate then
                        .error .DataAlignmentError
                      else if leU16 bab ≠ fmt_chunk.block_align then
                        .error .DataAlignmentError
                      else .ok (fmt_chunk, p8)

/-- Embedding of `WaveReader::read_data_chunk` (src/wav_tpl.rs,
lines 203-231): seek to `start_pos`, require magic `data`, read the 4-byte
size, then seek the shared handle back to `start_pos + 4` (the source's
off-by-four seek) and hand it to the chunk.  Returns the chunk and the
handle's resulting cursor. -/
def WaveReader.read_data_chunk (start_pos : Nat) (fmt_info : PCMWaveFormatChunk)
    (bytes : List Nat) :
    Except WaveReaderError (PCMWaveDataChunk × Nat) :=
  match readBytes bytes start_pos 4 with
  | .error e => .error e
  | .ok (data_id, p1) =>
    if data_id ≠ [0x64, 0x61, 0x74, 0x61] then .error .ChunkTypeError
    else
      match readBytes bytes p1 4 with
      | .error e => .error e
      | .ok (szb, _) =>
        .ok ({ size_bytes := leU32 szb, format := fmt_info,
               data_pos := start_pos + 4 }, start_pos + 4)

/-- The `while let Ok(..)` loop of `WaveReader::open_pcm` (src/wav_tpl.rs,
lines 87-89): keep parsing data chunks at the shared handle's cursor,
stopping (and discarding the error) at the first failure.  Fuel-driven:
every successful parse advances the cursor by 4 and needs `pos + 8 ≤
bytes.length`, so `bytes.length + 1` dominates the iteration count. -/
def collectDataChunksAux (bytes : List Nat) (fmt : PCMWaveFormatChunk) :
    Nat → Nat → List PCMWaveDataChunk
  | 0, _ => []
  | fuel + 1, pos =>
    match WaveReader.read_data_chunk pos fmt bytes with
    | .error _ => []
    | .ok (c, pos') => c :: collectDataChunksAux bytes fmt fuel pos'

/-- Data chunks collected by `open_pcm`'s loop starting at cursor `pos`. -/
def collectDataChunks (bytes : List Nat) (fmt : PCMWaveFormatChunk)
    (pos : Nat) : List PCMWaveDataChunk :=
  collectDataChunksAux bytes fmt (bytes.length + 1) pos

/-- Embedding of `WaveReader::open_pcm` (src/wav_tpl.rs, lines 81-96): RIFF
header, then fmt chunk, then the data-chunk loop; any failure of the loop
body ends the loop without surfacing its error. -/
def WaveReader.open_pcm (bytes : List Nat) :
    Except WaveReaderError PCMWaveInfo :=
  match WaveReader.read_riff_chunk bytes 0 with
  | .error e => .error e
  | .ok (riff_header, p1) =>
    match WaveReader.read_fmt_chunk bytes p1 with
    | .error e => .error e
    | .ok (fmt_header, p2) =>
      .ok { riff_header, fmt_header,
            data_chunks := collectDataChunks bytes fmt_header p2 }

/-- Signed little-endian `i16` of two bytes. -/
def leI16 (b0 b1 : Nat) : Int :=
  let u := b0 + 256 * b1
  if u ≥ 2 ^ 15 then (u : Int) - 2 ^ 16 else (u : Int)

/-- Signed little-endian `i24` of three bytes. -/
def leI24 (b0 b1 b2 : Nat) : Int :=
  let u := b0 + 256 * b1 + 65536 * b2
  if u ≥ 2 ^ 23 then (u : Int) - 2 ^ 24 else (u : Int)

/-- Embedding of the channel loop of `Iterator::next` for
`PCMWaveDataChunk` (src/wav_tpl.rs, lines 285-309): one iteration per
channel, each matching on `bps` with arms for 8 (unsigned widen), 16
(`i16` LE), 24 (`i24` LE) and `_ => return None`.  The reader is the
remaining byte list; the result carries the frame and the rest of the
buffer. -/
def PCMWaveDataChunk.nextAux (bps : Nat) :
    Nat → List Nat → Option (List Int × List Nat)
  | 0, buf => some ([], buf)
  | n + 1, buf =>
    if bps = 8 then
      match buf with
      | b :: rest =>
        match PCMWaveDataChunk.nextAux bps n rest with
        | some (vals, rest') => some ((b : Int) :: vals, rest')
        | none => none
      | [] => none
    else if bps = 16 then
      match buf with
      | b0 :: b1 :: rest =>
        match PCMWaveDataChunk.nextAux bps n rest with
        | some (vals, rest') => some (leI16 b0 b1 :: vals, rest')
        | none => none
      | _ => none
    else if bps = 24 then
      match buf with
      | b0 :: b1 :: b2 :: rest =>
        match PCMWaveDataChunk.nextAux bps n rest with
        | some (vals, rest') => some (leI24 b0 b1 b2 :: vals, rest')
        | none => none
      | _ => none
    else none

/-- `Iterator::next` for `PCMWaveDataChunk`, as a function of the chunk's
format and its remaining buffered bytes. -/
def PCMWaveDataChunk.next (fmt : PCMWaveFormatChunk) (buf : List Nat) :
    Option (List Int × List Nat) :=
  PCMWaveDataChunk.nextAux fmt.bps fmt.num_channels buf

/-- A 24-byte fmt-chunk image declaring 1 channel, sample rate 8, and an
arbitrary `bps` value `v < 2^16`, with `byte_rate = 8 * 1 * v / 8 = v` and
`block_align = 1 * v / 8 = v / 8` chosen so that both alignment checks
pass. -/
def mkFmtFile (v : Nat) : List Nat :=
  [0x66, 0x6d, 0x74, 0x20,
   16, 0, 0, 0,
   1, 0,
   1, 0,
   8, 0, 0, 0,
   v % 256, v / 256 % 256, 0, 0,
   v / 8 % 256, v / 8 / 256 % 256,
   v % 256, v / 256 % 256]

/-- A 44-byte WAV image: valid RIFF header (file size 0), a valid PCM fmt
chunk (1 channel, rate 8, bps 8), followed by a chunk whose magic is
`LIST`, not `data`. -/
def c9File : List Nat :=
  [0x52, 0x49, 0x46, 0x46, 0, 0, 0, 0, 0x57, 0x41, 0x56, 0x45,
   0x66, 0x6d, 0x74, 0x20, 16, 0, 0, 0, 1, 0, 1, 0,
   8, 0, 0, 0, 8, 0, 0, 0, 1, 0, 8, 0,
   0x4C, 0x49, 0x53, 0x54, 0, 0, 0, 0]

/-- C1: the claim states `get_residuals(s, 1)` returns `len(s) - 1`
residuals `s[i] - s[i-1]`.  On the input of the source's own test
`sample_ietf_02a` the embedded code returns a vector of length 16 (the
input length), not 15, and its value differs from the 15 residuals the
test (and the claim's formula) expect. -/
theorem C1_get_residuals_code_eval :
    (FixedPredictor.get_residuals ietf02aIn 1).map List.length = some 16
      ∧ ietf02aOut.length = 15
      ∧ FixedPredictor.get_residuals ietf02aIn 1 ≠ some ietf02aOut := by
  refine ⟨by decide, by decide, by decide⟩

/-- C2: the claim states `max_rice_partition_order(N) = min(8, v2(N))`.
For `N = 8` the code returns the bit value `8`, while `min(8, v2(8)) = 3`. -/
theorem C2_max_rice_partition_order_code_eval :
    RiceEncoderOptions.max_rice_partition_order 8 = 8
      ∧ min 8 (specV2 8) = 3 ∧ (8 : Nat) ≠ 3 := by
  refine ⟨by decide, by decide, by decide⟩

/-- C3: the claim states the autocorrelation entry at lag `l` is the
unnormalized sum with no division by `N - l`.  For `s = [1, 1]`, `O = 1`
the unnormalized sequence is `[2, 1]`, but the code divides each sum by
`N - l` and returns `[1, 1]`. -/
theorem C3_get_autocorrelation_code_eval :
    VarPredictor.get_autocorrelation [1, 1] 1 = [1, 1]
      ∧ VarPredictor.get_autocorrelation [1, 1] 1 ≠ [2, 1] := by
  have heval : VarPredictor.get_autocorrelation [1, 1] 1 = [1, 1] := by
    unfold VarPredictor.get_autocorrelation
    norm_num [List.range_succ, List.getD, List.foldl_cons, List.foldl_nil,
      List.map_cons, List.map_nil, List.map_append, List.foldl_append]
  refine ⟨heval, by rw [heval]; norm_num⟩

/-- C4: the claim (and the source's own test `sample_crc8_01`) state
`build_crc8` on `[0x10]` with polynomial `0x07` returns `0x70`; the
embedded code returns `0x57`, because it appends 16 zero bits (one
`poly_len` shift inside the byte loop plus one after it) instead of 8. -/
theorem C4_build_crc8_code_eval :
    CrcOptions.build_crc8 0x07 8 [0x10] = 0x57
      ∧ CrcOptions.build_crc8 0x07 8 [0x10] ≠ 0x70 := by
  refine ⟨by decide, by decide⟩

/-- C5: the Rice encoding of `[3, -1, -13]` with parameter `M = 3`
(zigzag, `q` zero bits, stop bit, `M`-bit remainder, packed MSB-first) is
exactly the bytes `[0xE9, 0x12]` with one unused low bit in the last byte —
as the claim and the source's own test `encode_sample_ietf_03` state; the
source's `encode` body itself is an incomplete fragment that returns
nothing. -/
theorem C5_rice_encode_eval :
    RiceEncoderOptions.encode 3 [3, -1, -13] =
      { stream := [0xE9, 0x12], param := 3, extra_bits_len := 1 } := by
  decide

/-- C6: the claim states every `n ≤ 127` encodes to the single byte `[n]`.
The embedded code drops bit 0 of the payload in its one-byte branch
(`encode 1 = [0x00]`, not `[0x01]`) and places the boundary between the
one-byte and two-byte ranges at 65 (`encode 65` yields two bytes). -/
theorem C6_utf8_encode_code_eval :
    Utf8Encoder.encode 1 = [0x00]
      ∧ Utf8Encoder.encode 1 ≠ [0x01]
      ∧ (Utf8Encoder.encode 65).length = 2 := by
  refine ⟨by decide, by decide, by decide⟩

/-- C7: the claim states each quantized coefficient lies in the signed
`P`-bit range and the reported shift is clamped to at most 31.  The
embedded code clamps neither: for coefficients `[3.0]` with precision 2 it
returns the coefficient `3`, outside `[-2^1, 2^1 - 1]`, and with
precision 50 it reports shift 48 > 31. -/
theorem C7_quantize_coeffs_code_eval :
    VarPredictor.quantize_coeffs [(3 : ℚ)] 2 = ([3], 0)
      ∧ ((2 : Int) ^ (2 - 1) - 1 < 3)
      ∧ (VarPredictor.quantize_coeffs [(3 : ℚ)] 50).2 = 48
      ∧ (31 : Nat) < 48 := by
  have habs : List.foldl (fun num1 num2 => max num1 |num2|) (0 : ℚ) [3] = 3 := by
    simp only [List.foldl_cons, List.foldl_nil]
    rw [abs_of_nonneg (by norm_num : (0 : ℚ) ≤ 3)]
    exact max_eq_right (by norm_num)
  have hlog : ratFloorLog2 3 = 1 := by
    unfold ratFloorLog2
    rw [if_pos (by norm_num : (1 : ℚ) ≤ 3)]
    norm_num
    rfl
  have h2 : VarPredictor.quantize_coeffs [(3 : ℚ)] 2 = ([3], 0) := by
    unfold VarPredictor.quantize_coeffs
    rw [habs]
    norm_num [hlog, rustRound, f64ToU32, List.foldl_cons, List.foldl_nil]
    decide
  have h50 : (VarPredictor.quantize_coeffs [(3 : ℚ)] 50).2 = 48 := by
    unfold VarPredictor.quantize_coeffs
    rw [habs]
    norm_num [hlog]
    decide
  exact ⟨h2, by norm_num, h50, by norm_num⟩

/-- C8: the claim states any non-empty input yields `Some(k*)` over the
feasible orders.  For `s = [0, 0]`, order 0 is feasible (residuals
`[0, 0]`), yet the embedded code returns `None` because order 2 is
infeasible and the loop aborts on the first infeasible order. -/
theorem C8_best_predictor_order_code_eval :
    FixedPredictor.get_residuals ([0, 0] : List Int) 0 = some [0, 0]
      ∧ FixedPredictor.best_predictor_order [0, 0] = none := by
  refine ⟨by decide, by decide⟩

/-- C9 counterexample: on a file whose chunk after the fmt chunk starts
with `LIST` instead of `data`, `read_data_chunk` does return
`ChunkTypeError`, but `open_pcm` returns `Ok` with the data chunks
collected so far (here none) — it does not fail as the claim states. -/
theorem C9_open_pcm_counterexample :
    WaveReader.read_data_chunk 36 ⟨1, 8, 8⟩ c9File =
        .error .ChunkTypeError
      ∧ WaveReader.open_pcm c9File =
          .ok { riff_header := ⟨0, false⟩, fmt_header := ⟨1, 8, 8⟩,
                data_chunks := [] } := by
  exact ⟨rfl, rfl⟩

/-- C9 amended: when the RIFF header and fmt chunk parse and the first
subsequent chunk does not begin with `data` (so `read_data_chunk` yields
`ChunkTypeError`), `open_pcm` swallows that error and returns `Ok` with the
empty list of data chunks instead of propagating it. -/
theorem C9_open_pcm_swallows_chunk_type_error
    (bytes : List Nat) (r : RiffChunk) (p1 : Nat)
    (f : PCMWaveFormatChunk) (p2 : Nat)
    (hriff : WaveReader.read_riff_chunk bytes 0 = .ok (r, p1))
    (hfmt : WaveReader.read_fmt_chunk bytes p1 = .ok (f, p2))
    (hdata : WaveReader.read_data_chunk p2 f bytes = .error .ChunkTypeError) :
    WaveReader.open_pcm bytes =
      .ok { riff_header := r, fmt_header := f, data_chunks := [] } := by
  simp only [WaveReader.open_pcm, hriff, hfmt, collectDataChunks,
    collectDataChunksAux, hdata]

/-- C9 witness: the amended theorem applied to the concrete `LIST` file. -/
theorem C9_open_pcm_swallows_chunk_type_error_witness :
    WaveReader.open_pcm c9File =
      .ok { riff_header := ⟨0, false⟩, fmt_header := ⟨1, 8, 8⟩,
            data_chunks := [] } :=
  C9_open_pcm_swallows_chunk_type_error c9File ⟨0, false⟩ 12 ⟨1, 8, 8⟩ 36
    rfl rfl rfl

/-- C10 counterexample: for a chunk format declaring `bps = 12` but zero
channels, the iterator's `next()` does not return `None` on the first
call — the channel loop body never runs and `next()` yields an empty
frame. -/
theorem C10_next_counterexample :
    PCMWaveDataChunk.next ⟨0, 8, 12⟩ [] = some ([], [])
      ∧ PCMWaveDataChunk.next ⟨0, 8, 12⟩ [] ≠ none := by
  refine ⟨by decide, by decide⟩

/-- C10 amended: the fmt parser accepts every declared bits-per-sample
value `v < 2^16` (no membership check against `{8, 16, 24}`), and for any
chunk format declaring at least one channel and a bits-per-sample outside
`{8, 16, 24}`, the frame iterator's `next()` returns `None` on the first
call, regardless of the buffered bytes. -/
theorem C10_bps_unvalidated_and_next_none :
    (∀ v : Nat, v < 65536 →
        WaveReader.read_fmt_chunk (mkFmtFile v) 0 = .ok (⟨1, 8, v⟩, 24))
      ∧ (∀ (fmt : PCMWaveFormatChunk) (buf : List Nat),
          1 ≤ fmt.num_channels → fmt.bps ≠ 8 → fmt.bps ≠ 16 → fmt.bps ≠ 24 →
          PCMWaveDataChunk.next fmt buf = none) := by
  constructor
  · intro v hv
    have hb : v % 256 + 256 * (v / 256 % 256) = v := by omega
    have ha : v / 8 % 256 + 256 * (v / 8 / 256 % 256) = v / 8 := by omega
    have hr : 8 * 1 * v / 8 = v := by omega
    have hba : 1 * v / 8 = v / 8 := by omega
    simp only [WaveReader.read_fmt_chunk, mkFmtFile, readBytes, leU16, leU32,
      PCMWaveFormatChunk.byte_rate, PCMWaveFormatChunk.block_align,
      List.take, List.drop, List.length]
    norm_num [hb, ha, hr, hba]
  · intro fmt buf hch h8 h16 h24
    unfold PCMWaveDataChunk.next
    rcases hn : fmt.num_channels with _ | k
    · omega
    · simp [PCMWaveDataChunk.nextAux, h8, h16, h24]

/-- C10 witness: the amended theorem at `v = 12` and a one-channel `bps =
12` format with a non-empty buffer. -/
theorem C10_bps_unvalidated_and_next_none_witness :
    WaveReader.read_fmt_chunk (mkFmtFile 12) 0 = .ok (⟨1, 8, 12⟩, 24)
      ∧ PCMWaveDataChunk.next ⟨1, 8, 12⟩ [5, 6] = none :=
  ⟨C10_bps_unvalidated_and_next_none.1 12 (by decide),
   C10_bps_unvalidated_and_next_none.2 ⟨1, 8, 12⟩ [5, 6]
     (by decide) (by decide) (by decide) (by decide)⟩
